import Mathlib

/-!
# Verification of the recipe CRUD service

Shallow embedding of the recipe/ingredient HTTP service
(`src/models.py`, `src/schemas.py`, `src/router.py`).

The relational store is modelled as three lists of rows (recipes,
ingredients, associations) together with the autoincrement counters of the
two integer primary keys.  Each request handler is a pure function from the
store state (and the request payload) to a response together with the new
store state.  A SQL `commit` is modelled as a constraint check on the
candidate state: the commit succeeds exactly when all primary-key and
uniqueness constraints of the schema hold, otherwise the transaction is
rolled back and the session keeps the previously committed state.
-/

namespace RecipeApp

/-- Row of the `recipes` table (`models.Recipe`): integer primary key `id`,
unique non-null `title`, nullable `description`, non-null `cook_time`,
`views` defaulting to 0. -/
structure Recipe where
  id : Nat
  title : String
  description : Option String
  cook_time : Int
  views : Nat
  deriving Repr, DecidableEq

/-- Row of the `ingredients` table (`models.Ingredient`): integer primary
key `id`, unique non-null `title`. -/
structure Ingredient where
  id : Nat
  title : String
  deriving Repr, DecidableEq

/-- Row of the `recipe_ingredient` association table
(`models.RecipeIngredient`): composite primary key
`(recipe_id, ingredient_id)` plus a nullable `quantity` string. -/
structure RecipeIngredient where
  recipe_id : Nat
  ingredient_id : Nat
  quantity : Option String
  deriving Repr, DecidableEq

/-- The persisted store: the three tables plus the autoincrement state of
the two integer primary keys. -/
structure DB where
  recipes : List Recipe
  ingredients : List Ingredient
  associations : List RecipeIngredient
  nextRecipeId : Nat
  nextIngredientId : Nat
  deriving Repr, DecidableEq

/-- The primary-key / uniqueness constraints declared in `models.py`:
`recipes.id` and `ingredients.id` are primary keys, `recipes.title` and
`ingredients.title` are unique, and `(recipe_id, ingredient_id)` is the
composite primary key of `recipe_ingredient`.  A `commit` succeeds exactly
when the candidate state satisfies all of them. -/
def DB.ConstraintsOK (db : DB) : Prop :=
  (db.recipes.map (·.id)).Nodup ∧
  (db.recipes.map (·.title)).Nodup ∧
  (db.ingredients.map (·.id)).Nodup ∧
  (db.ingredients.map (·.title)).Nodup ∧
  (db.associations.map (fun a => (a.recipe_id, a.ingredient_id))).Nodup

instance (db : DB) : Decidable db.ConstraintsOK := by
  unfold DB.ConstraintsOK; infer_instance

/-- Well-formed store: the constraints hold and the autoincrement counters
are ahead of every existing id (what SQLite's rowid allocation maintains). -/
def DB.WF (db : DB) : Prop :=
  db.ConstraintsOK ∧
  (∀ r ∈ db.recipes, r.id < db.nextRecipeId) ∧
  (∀ i ∈ db.ingredients, i.id < db.nextIngredientId)

instance (db : DB) : Decidable db.WF := by
  unfold DB.WF; infer_instance

/-! ## Request payloads (`schemas.py`) -/

/-- `schemas.IngredientIn`: an ingredient reference in a create/update
payload — `title` (≤ 100 chars) and a required `quantity` string. -/
structure IngredientIn where
  title : String
  quantity : String
  deriving Repr, DecidableEq

/-- `schemas.RecipeCreate`: all fields required. -/
structure RecipeCreate where
  title : String
  description : String
  cook_time : Int
  ingredients : List IngredientIn
  deriving Repr, DecidableEq

/-- `schemas.RecipeUpdate`: every field optional; `none` models an omitted
field ("leave unchanged"). -/
structure RecipeUpdate where
  title : Option String
  cook_time : Option Int
  description : Option String
  ingredients : Option (List IngredientIn)
  deriving Repr, DecidableEq

/-- Pydantic validation of `schemas.RecipeCreate`: `title` ≤ 100 chars,
`cook_time > 0`, `description` ≤ 1000 chars, `ingredients` non-empty
(`min_items=1`) with each ingredient title ≤ 100 chars. -/
def validRecipeCreate (p : RecipeCreate) : Bool :=
  p.title.length ≤ 100 && 0 < p.cook_time && p.description.length ≤ 1000 &&
  1 ≤ p.ingredients.length && p.ingredients.all (fun i => i.title.length ≤ 100)

/-- Pydantic validation of `schemas.RecipeUpdate`: each supplied field must
satisfy the same bound as on create; a supplied `ingredients` list must have
`min_items=1` — in particular an explicitly empty list is rejected. -/
def validRecipeUpdate (u : RecipeUpdate) : Bool :=
  (match u.title with | none => true | some t => t.length ≤ 100) &&
  (match u.cook_time with | none => true | some c => 0 < c) &&
  (match u.description with | none => true | some d => d.length ≤ 1000) &&
  (match u.ingredients with
   | none => true
   | some l => 1 ≤ l.length && l.all (fun i => i.title.length ≤ 100))

/-! ## Response shapes -/

/-- One `{id, title, quantity}` triple of the reshaped ingredient list in a
detail response. -/
structure IngredientOutQ where
  id : Nat
  title : String
  quantity : Option String
  deriving Repr, DecidableEq

/-- `schemas.RecipeOut`: the detail response shape. -/
structure RecipeOut where
  id : Nat
  title : String
  description : Option String
  cook_time : Int
  views : Nat
  ingredients : List IngredientOutQ
  deriving Repr, DecidableEq

/-- `recipe.ingredients` (the `secondary="recipe_ingredient"` relationship):
the ingredient row behind each association row of this recipe. -/
def recipeIngredientObjs (db : DB) (rid : Nat) : List Ingredient :=
  (db.associations.filter (fun a => a.recipe_id == rid)).filterMap
    (fun a => db.ingredients.find? (fun i => i.id == a.ingredient_id))

/-- The reshaped ingredient list of `get_recipe_detail` / `create_recipe`:
for each ingredient of the recipe, `quantity` is resolved with
`next((ri.quantity for ri in recipe.recipe_ingredients if ri.ingredient_id == ing.id), None)`. -/
def ingredientListOut (db : DB) (rid : Nat) : List IngredientOutQ :=
  (recipeIngredientObjs db rid).map (fun ing =>
    { id := ing.id, title := ing.title,
      quantity :=
        match (db.associations.filter (fun a => a.recipe_id == rid)).find?
            (fun ri => ri.ingredient_id == ing.id) with
        | some ri => ri.quantity
        | none => none })

/-- Reload of a recipe in response shape (`select ... options(selectinload ...)`
followed by the dict reshaping). -/
def buildRecipeOut (db : DB) (rid : Nat) : Option RecipeOut :=
  (db.recipes.find? (fun r => r.id == rid)).map (fun r =>
    { id := r.id, title := r.title, description := r.description,
      cook_time := r.cook_time, views := r.views,
      ingredients := ingredientListOut db rid })

/-! ## GET /recipes/ (`get_all_recipes`) -/

/-- The `ORDER BY views DESC, cook_time ASC` comparison used by
`get_all_recipes`. -/
def listLE (a b : Recipe) : Bool :=
  b.views < a.views || (a.views == b.views && a.cook_time ≤ b.cook_time)

/-- `get_all_recipes`: a pure `SELECT` — all recipes ordered by views
descending then cook_time ascending; the handler performs no mutation, so
the store component of the result is the input store. -/
def get_all_recipes (db : DB) : List Recipe × DB :=
  (db.recipes.mergeSort listLE, db)

/-! ## GET /recipes/{id} (`get_recipe_detail`) -/

/-- Increment the `views` of the recipe object returned by
`scalar_one_or_none` (the first row matching the id). -/
def incViews (rid : Nat) : List Recipe → List Recipe
  | [] => []
  | r :: rs =>
    if r.id == rid then { r with views := r.views + 1 } :: rs
    else r :: incViews rid rs

/-- Responses of `get_recipe_detail`: 404 or the detail body. -/
inductive DetailResult where
  | ok (out : RecipeOut)
  | notFound
  | serverError
  deriving Repr, DecidableEq

/-- `get_recipe_detail`: look the recipe up with its associations; 404 if
absent; otherwise `recipe.views += 1`, commit, and return the reshaped
detail body. -/
def get_recipe_detail (db : DB) (rid : Nat) : DetailResult × DB :=
  match db.recipes.find? (fun r => r.id == rid) with
  | none => (.notFound, db)
  | some _ =>
    let db' : DB := { db with recipes := incViews rid db.recipes }
    match buildRecipeOut db' rid with
    | some out => (.ok out, db')
    | none => (.serverError, db')

/-! ## POST /recipes/ (`create_recipe`) -/

/-- Default of the auxiliary boolean query parameter of `create_recipe`:
`important: bool = Query(True, ...)`. -/
def important_default : Bool := true

/-- Responses of `create_recipe`: 422 (payload validation), 400 (duplicate
title), the created detail body, or a 500 from the global exception
handler (the handler has no try/except of its own). -/
inductive CreateResult where
  | ok (out : RecipeOut)
  | validationError
  | conflict
  | serverError
  deriving Repr, DecidableEq

/-- Candidate state of the commit issued when a new ingredient row is
created mid-loop: the new ingredient row plus every association row pending
in the session at that point. -/
def loopStep (committed : DB) (pend : List RecipeIngredient)
    (title : String) : DB :=
  { committed with
    ingredients :=
      committed.ingredients ++ [⟨committed.nextIngredientId, title⟩],
    nextIngredientId := committed.nextIngredientId + 1,
    associations := committed.associations ++ pend }

/-- The ingredient loop of `create_recipe`.  Per supplied ingredient: look
the ingredient up by exact title among the committed rows; if absent,
create it and `commit` — which also flushes the association rows pending in
the session — then add the association row for this ingredient to the
session (pending).  A failed commit raises out of the handler (which has no
try/except), leaving the store at the last committed state.  Returns the
committed store and the still-pending association rows, or the committed
store at the point of failure. -/
def createLoop (rid : Nat) :
    List IngredientIn → DB → List RecipeIngredient →
    Except DB (DB × List RecipeIngredient)
  | [], committed, pend => .ok (committed, pend)
  | ing :: rest, committed, pend =>
    match committed.ingredients.find? (fun i => i.title == ing.title) with
    | some i =>
      createLoop rid rest committed (pend ++ [⟨rid, i.id, some ing.quantity⟩])
    | none =>
      if (loopStep committed pend ing.title).ConstraintsOK then
        createLoop rid rest (loopStep committed pend ing.title)
          [⟨rid, committed.nextIngredientId, some ing.quantity⟩]
      else .error committed

/-- The store with the new recipe row inserted (the state committed by the
`db.commit()` right after `db.add(new_recipe)`). -/
def insertRecipeRow (db : DB) (p : RecipeCreate) : DB :=
  { db with
    recipes :=
      db.recipes ++ [⟨db.nextRecipeId, p.title, some p.description,
        p.cook_time, 0⟩],
    nextRecipeId := db.nextRecipeId + 1 }

/-- A committed store extended with pending association rows — the
candidate state of a commit that flushes those rows. -/
def withAssocs (dbc : DB) (pend : List RecipeIngredient) : DB :=
  { dbc with associations := dbc.associations ++ pend }

/-- The final commit of `create_recipe` and the reload of the created
recipe: if the commit fails the store stays at the last committed state. -/
def createFinish (rid : Nat) (dbc : DB) (pend : List RecipeIngredient) :
    CreateResult × DB :=
  if (withAssocs dbc pend).ConstraintsOK then
    match buildRecipeOut (withAssocs dbc pend) rid with
    | some out => (.ok out, withAssocs dbc pend)
    | none => (.serverError, withAssocs dbc pend)
  else (.serverError, dbc)

/-- `create_recipe` after payload validation: reject with 400 if a recipe
with the same title exists; otherwise insert and commit the recipe row,
run the ingredient loop, commit the pending association rows, and return
the reloaded detail body.  Each commit persists everything pending at that
point, so a later failure does not undo earlier commits. -/
def create_recipe (db : DB) (p : RecipeCreate) : CreateResult × DB :=
  if db.recipes.any (fun r => r.title == p.title) then (.conflict, db)
  else if (insertRecipeRow db p).ConstraintsOK then
    match createLoop db.nextRecipeId p.ingredients (insertRecipeRow db p)
        [] with
    | .error dbc => (.serverError, dbc)
    | .ok (dbc, pend) => createFinish db.nextRecipeId dbc pend
  else (.serverError, db)

/-- The full POST endpoint: pydantic validation of the payload, then the
handler.  The `important` query flag is accepted and passed to the handler
signature but never read by the handler body. -/
def handle_create (db : DB) (p : RecipeCreate) (important : Bool) :
    CreateResult × DB :=
  if validRecipeCreate p then create_recipe db p else (.validationError, db)

/-! ## PATCH /recipes/{id} (`update_recipe`) -/

/-- Responses of `update_recipe`: 422 (payload validation), 404, a 500
(rollback branch), or the updated recipe row. -/
inductive UpdateResult where
  | ok (r : Recipe)
  | validationError
  | notFound
  | serverError
  deriving Repr, DecidableEq

/-- The ingredient loop of `update_recipe`: per supplied ingredient, find
the ingredient by title among the committed rows and those created (and
flushed) earlier in this request; create it when absent; record the new
association row.  Everything stays pending until the single commit. -/
def updateLoop (base : List Ingredient) (rid : Nat) :
    List IngredientIn → List Ingredient → Nat → List RecipeIngredient →
    List Ingredient × Nat × List RecipeIngredient
  | [], newIngs, nextId, assocs => (newIngs, nextId, assocs)
  | ing :: rest, newIngs, nextId, assocs =>
    match (base ++ newIngs).find? (fun i => i.title == ing.title) with
    | some i =>
      updateLoop base rid rest newIngs nextId
        (assocs ++ [⟨rid, i.id, some ing.quantity⟩])
    | none =>
      let ni : Ingredient := ⟨nextId, ing.title⟩
      updateLoop base rid rest (newIngs ++ [ni]) (nextId + 1)
        (assocs ++ [⟨rid, ni.id, some ing.quantity⟩])

/-- Replace the recipe object loaded by `scalar_one_or_none` (the first row
matching the id) after its scalar fields were assigned. -/
def replaceRecipe (rid : Nat) (r1 : Recipe) : List Recipe → List Recipe
  | [] => []
  | r :: rs =>
    if r.id == rid then r1 :: rs else r :: replaceRecipe rid r1 rs

/-- `update_recipe` after payload validation: 404 if the recipe is absent
(propagated unchanged through the except-clauses); apply each supplied
scalar field; when `ingredients` is supplied, delete this recipe's
association rows and rebuild them with the lookup-or-create loop; then
commit.  Any failure in the try-block rolls the session back and yields a
500 with the store unchanged. -/
def update_recipe (db : DB) (rid : Nat) (u : RecipeUpdate) :
    UpdateResult × DB :=
  match db.recipes.find? (fun r => r.id == rid) with
  | none => (.notFound, db)
  | some r =>
    let r1 : Recipe :=
      { r with
        title := u.title.getD r.title,
        cook_time := u.cook_time.getD r.cook_time,
        description :=
          match u.description with | some d => some d | none => r.description }
    match u.ingredients with
    | none =>
      let cand : DB := { db with recipes := replaceRecipe rid r1 db.recipes }
      if cand.ConstraintsOK then (.ok r1, cand) else (.serverError, db)
    | some ings =>
      let res := updateLoop db.ingredients rid ings [] db.nextIngredientId []
      let cand : DB :=
        { db with
          recipes := replaceRecipe rid r1 db.recipes,
          ingredients := db.ingredients ++ res.1,
          nextIngredientId := res.2.1,
          associations :=
            db.associations.filter (fun a => !(a.recipe_id == rid)) ++
              res.2.2 }
      if cand.ConstraintsOK then (.ok r1, cand) else (.serverError, db)

/-- The full PATCH endpoint: pydantic validation of the payload, then the
handler. -/
def handle_update (db : DB) (rid : Nat) (u : RecipeUpdate) :
    UpdateResult × DB :=
  if validRecipeUpdate u then update_recipe db rid u
  else (.validationError, db)

/-! ## DELETE /recipes/{id} (`delete_recipe`) -/

/-- Responses of `delete_recipe`: 404, 500, or 204 with empty body. -/
inductive DeleteResult where
  | noContent
  | notFound
  | serverError
  deriving Repr, DecidableEq

/-- Remove the recipe object passed to `session.delete` (the first row
matching the id). -/
def eraseRecipe (rid : Nat) : List Recipe → List Recipe
  | [] => []
  | r :: rs => if r.id == rid then rs else r :: eraseRecipe rid rs

/-- `delete_recipe`: 404 if the recipe is absent; otherwise bulk-delete the
association rows with this `recipe_id`, delete the recipe row, and commit
both as one unit, answering 204 with no body.  A commit that only deletes
rows cannot violate a schema constraint, so this commit always succeeds
(the rollback-and-500 except-clause of the handler is unreachable under
the modelled failure modes). -/
def delete_recipe (db : DB) (rid : Nat) : DeleteResult × DB :=
  match db.recipes.find? (fun r => r.id == rid) with
  | none => (.notFound, db)
  | some _ =>
    (.noContent,
      { db with
        recipes := eraseRecipe rid db.recipes,
        associations :=
          db.associations.filter (fun a => !(a.recipe_id == rid)) })

/-! ## Derived observations and test fixtures -/

/-- The `views` counter of the recipe a lookup by `rid` would return. -/
def viewsOf (db : DB) (rid : Nat) : Option Nat :=
  (db.recipes.find? (fun r => r.id == rid)).map (·.views)

/-- `N` successive single-recipe fetches of the same id (each request works
on the store committed by the previous one). -/
def fetchN (rid : Nat) : Nat → DB → DB
  | 0, db => db
  | n + 1, db => fetchN rid n (get_recipe_detail db rid).2

/-- Fixture: the empty store right after `create_all`. -/
def emptyDB : DB := ⟨[], [], [], 1, 1⟩

/-- Fixture: one recipe (id 1, title "Soup") associated with one ingredient
(id 1, title "Tomato") with quantity "500g". -/
def exDB : DB :=
  ⟨[⟨1, "Soup", some "d", 40, 0⟩], [⟨1, "Tomato"⟩], [⟨1, 1, some "500g"⟩],
   2, 2⟩

/-- Fixture: three recipes with distinct view counts and cook times, to
exercise the list ordering. -/
def sortDB : DB :=
  ⟨[⟨1, "a", none, 5, 2⟩, ⟨2, "b", none, 3, 7⟩, ⟨3, "c", none, 1, 2⟩],
   [], [], 4, 1⟩

/-- Invariant carried through the ingredient loop of `create_recipe`: every
store the loop leaves behind (on failure or on success) satisfies the
schema constraints and only ever appends ingredient rows to those of the
store the loop started from. -/
def ResultOK (base : DB) :
    Except DB (DB × List RecipeIngredient) → Prop
  | .error dbc =>
    dbc.ConstraintsOK ∧ ∃ ext, dbc.ingredients = base.ingredients ++ ext
  | .ok (dbc, _) =>
    dbc.ConstraintsOK ∧ ∃ ext, dbc.ingredients = base.ingredients ++ ext

/-! ## Helper lemmas -/

theorem validRecipeUpdate_eq_true (u : RecipeUpdate) :
    validRecipeUpdate u = true ↔
      (∀ t, u.title = some t → t.length ≤ 100) ∧
      (∀ c, u.cook_time = some c → 0 < c) ∧
      (∀ d, u.description = some d → d.length ≤ 1000) ∧
      (∀ l, u.ingredients = some l →
        1 ≤ l.length ∧ ∀ i ∈ l, i.title.length ≤ 100) := by
  obtain ⟨t, c, d, i⟩ := u
  cases t <;> cases c <;> cases d <;> cases i <;>
    simp [validRecipeUpdate, List.all_eq_true, and_assoc]

/-! ## Claims -/

/-- C9: the boolean query flag `important` on create defaults to `true` and
has no effect — two runs of the create endpoint that differ only in the
value of this flag produce the same response and the same final store. -/
theorem create_important_flag_inert :
    important_default = true ∧
    ∀ (db : DB) (p : RecipeCreate) (b1 b2 : Bool),
      handle_create db p b1 = handle_create db p b2 :=
  ⟨rfl, fun _ _ _ _ => rfl⟩

/-- C6: for every store in which a recipe with the request's title already
exists, a (valid) create request with that exact title answers 400 Conflict
and leaves the store unchanged — no recipe, ingredient, or association row
is added or modified. -/
theorem create_duplicate_title_conflict
    (db : DB) (p : RecipeCreate) (b : Bool)
    (hv : validRecipeCreate p = true)
    (hex : ∃ r ∈ db.recipes, r.title = p.title) :
    handle_create db p b = (.conflict, db) := by
  obtain ⟨r, hr, ht⟩ := hex
  have hany : db.recipes.any (fun r => r.title == p.title) = true := by
    rw [List.any_eq_true]
    exact ⟨r, hr, by simp [ht]⟩
  simp [handle_create, hv, create_recipe, hany]

theorem create_duplicate_title_conflict_witness :
    validRecipeCreate ⟨"Soup", "x", 10, [⟨"T", "1"⟩]⟩ = true ∧
    (∃ r ∈ exDB.recipes, r.title = "Soup") ∧
    handle_create exDB ⟨"Soup", "x", 10, [⟨"T", "1"⟩]⟩ true =
      (.conflict, exDB) :=
  ⟨by decide, ⟨⟨1, "Soup", some "d", 40, 0⟩, by simp [exDB], rfl⟩,
    create_duplicate_title_conflict exDB ⟨"Soup", "x", 10, [⟨"T", "1"⟩]⟩
      true (by decide) ⟨⟨1, "Soup", some "d", 40, 0⟩, by simp [exDB], rfl⟩⟩

/-- C4 (corrected), counterexample to the claim as stated: a partial update
that explicitly supplies `ingredients: []` does not succeed and does not
clear the association set — pydantic's `min_items=1` rejects the payload
before the handler runs, leaving the (non-empty) association set as it
was. -/
theorem update_empty_ingredients_counterexample :
    (handle_update exDB 1 ⟨none, none, none, some []⟩).1 =
      .validationError ∧
    (handle_update exDB 1 ⟨none, none, none, some []⟩).2 = exDB ∧
    exDB.associations ≠ [] := by decide

/-- C4 (amended): a partial-update request that explicitly supplies
`ingredients` as an empty list is rejected by payload validation
(`min_items=1`), so the operation never runs and the store — association
rows and ingredient rows alike — is left unchanged. -/
theorem update_empty_ingredients_rejected
    (db : DB) (rid : Nat) (u : RecipeUpdate)
    (h : u.ingredients = some []) :
    handle_update db rid u = (.validationError, db) := by
  have hv : validRecipeUpdate u = false := by
    rw [Bool.eq_false_iff]
    intro hvt
    have := ((validRecipeUpdate_eq_true u).mp hvt).2.2.2 [] h
    simp at this
  simp [handle_update, hv]

theorem update_empty_ingredients_rejected_witness :
    (⟨none, none, none, some []⟩ : RecipeUpdate).ingredients = some [] ∧
    handle_update exDB 1 ⟨none, none, none, some []⟩ =
      (.validationError, exDB) :=
  ⟨rfl, update_empty_ingredients_rejected exDB 1 _ rfl⟩

/-- C10: a partial-update payload supplying a non-positive `cook_time`, a
title longer than 100 characters, or a description longer than 1000
characters is rejected by payload validation before the handler runs, so
the targeted recipe (and the whole store) is left unchanged. -/
theorem update_payload_validation_bounds
    (db : DB) (rid : Nat) (u : RecipeUpdate)
    (h : (∃ c, u.cook_time = some c ∧ c ≤ 0) ∨
         (∃ t, u.title = some t ∧ 100 < t.length) ∨
         (∃ d, u.description = some d ∧ 1000 < d.length)) :
    handle_update db rid u = (.validationError, db) := by
  have hv : validRecipeUpdate u = false := by
    rw [Bool.eq_false_iff]
    intro hvt
    have hc := (validRecipeUpdate_eq_true u).mp hvt
    rcases h with ⟨c, hc1, hc2⟩ | ⟨t, ht1, ht2⟩ | ⟨d, hd1, hd2⟩
    · have := hc.2.1 c hc1; omega
    · have := hc.1 t ht1; omega
    · have := hc.2.2.1 d hd1; omega
  simp [handle_update, hv]

theorem update_payload_validation_bounds_witness :
    (∃ c, (⟨none, some 0, none, none⟩ : RecipeUpdate).cook_time = some c ∧
      c ≤ 0) ∧
    handle_update exDB 1 ⟨none, some 0, none, none⟩ =
      (.validationError, exDB) :=
  ⟨⟨0, rfl, by decide⟩,
    update_payload_validation_bounds exDB 1 _ (.inl ⟨0, rfl, by decide⟩)⟩

theorem listLE_trans (a b c : Recipe) (h1 : listLE a b) (h2 : listLE b c) :
    listLE a c := by
  simp only [listLE, Bool.or_eq_true, Bool.and_eq_true, decide_eq_true_eq,
    beq_iff_eq] at h1 h2 ⊢
  rcases h1 with h1 | ⟨h1, h1'⟩ <;> rcases h2 with h2 | ⟨h2, h2'⟩
  · exact .inl (h2.trans h1)
  · exact .inl (by omega)
  · exact .inl (by omega)
  · exact .inr ⟨by omega, le_trans h1' h2'⟩

theorem listLE_total (a b : Recipe) : listLE a b || listLE b a := by
  simp only [listLE, Bool.or_eq_true, Bool.and_eq_true, decide_eq_true_eq,
    beq_iff_eq]
  rcases Nat.lt_trichotomy a.views b.views with h | h | h
  · exact .inr (.inl h)
  · rcases le_total a.cook_time b.cook_time with h' | h'
    · exact .inl (.inr ⟨h, h'⟩)
    · exact .inr (.inr ⟨h.symm, h'⟩)
  · exact .inl (.inl h)

/-- C2: the list endpoint returns all recipes (a permutation of the store's
recipe rows), ordered by views descending with ties broken by cook_time
ascending — for any two positions `i < j` of the result, the recipe at `j`
has no more views, and equal views force `cook_time i ≤ cook_time j` (so a
strictly more viewed recipe always precedes, and among equally viewed ones
a strictly faster recipe always precedes) — and it leaves the store
unchanged. -/
theorem list_recipes_sorted (db : DB) :
    (get_all_recipes db).2 = db ∧
    (get_all_recipes db).1.Perm db.recipes ∧
    ∀ (i j : Fin (get_all_recipes db).1.length), i < j →
      ((get_all_recipes db).1.get j).views ≤
        ((get_all_recipes db).1.get i).views ∧
      (((get_all_recipes db).1.get i).views =
          ((get_all_recipes db).1.get j).views →
        ((get_all_recipes db).1.get i).cook_time ≤
          ((get_all_recipes db).1.get j).cook_time) := by
  refine ⟨rfl, List.mergeSort_perm db.recipes listLE, ?_⟩
  have hs : (get_all_recipes db).1.Pairwise (fun a b => listLE a b) :=
    List.sorted_mergeSort (fun a b c => listLE_trans a b c)
      listLE_total db.recipes
  have := List.pairwise_iff_get.mp hs
  intro i j hij
  have h := this i j hij
  simp only [listLE, Bool.or_eq_true, Bool.and_eq_true, decide_eq_true_eq,
    beq_iff_eq] at h
  constructor
  · rcases h with h | ⟨h, _⟩ <;> omega
  · intro hv
    rcases h with h | ⟨_, h⟩
    · omega
    · exact h

theorem list_recipes_sorted_witness :
    (get_all_recipes sortDB).2 = sortDB ∧
    (get_all_recipes sortDB).1.Perm sortDB.recipes ∧
    ((get_all_recipes sortDB).1.get
        ⟨1, by simp [get_all_recipes, sortDB]⟩).views ≤
      ((get_all_recipes sortDB).1.get
        ⟨0, by simp [get_all_recipes, sortDB]⟩).views :=
  ⟨(list_recipes_sorted sortDB).1, (list_recipes_sorted sortDB).2.1,
    ((list_recipes_sorted sortDB).2.2
      ⟨0, by simp [get_all_recipes, sortDB]⟩
      ⟨1, by simp [get_all_recipes, sortDB]⟩
      (by simp)).1⟩

theorem mem_eraseRecipe (rid : Nat) (l : List Recipe)
    (h : (l.map (·.id)).Nodup) (x : Recipe) :
    x ∈ eraseRecipe rid l ↔ x ∈ l ∧ x.id ≠ rid := by
  induction l with
  | nil => simp [eraseRecipe]
  | cons r rs ih =>
    rw [List.map_cons, List.nodup_cons] at h
    by_cases hr : r.id = rid
    · rw [eraseRecipe, if_pos (by simp [hr])]
      constructor
      · intro hx
        refine ⟨.tail _ hx, fun hxid => ?_⟩
        have hm : x.id ∈ rs.map (·.id) := List.mem_map_of_mem _ hx
        rw [hxid, ← hr] at hm
        exact h.1 hm
      · rintro ⟨hx, hxid⟩
        cases hx with
        | head => exact absurd hr hxid
        | tail _ hx => exact hx
    · rw [eraseRecipe, if_neg (by simp [hr])]
      constructor
      · intro hx
        cases hx with
        | head => exact ⟨.head _, hr⟩
        | tail _ hx =>
          have := (ih h.2).mp hx
          exact ⟨.tail _ this.1, this.2⟩
      · rintro ⟨hx, hxid⟩
        cases hx with
        | head => exact .head _
        | tail _ hx => exact .tail _ ((ih h.2).mpr ⟨hx, hxid⟩)

/-- C7: deleting an absent recipe id answers 404 with the store unchanged;
deleting a present id answers 204 (empty body) and, in one committed unit,
removes every association row of that recipe and the recipe row itself —
membership in the resulting recipe table is exactly "was there before and
is not the deleted id" — while leaving the ingredient table untouched (so
every referenced ingredient is still fetchable). -/
theorem delete_recipe_spec (db : DB) (rid : Nat)
    (hids : (db.recipes.map (·.id)).Nodup) :
    (db.recipes.find? (fun r => r.id == rid) = none →
      delete_recipe db rid = (.notFound, db)) ∧
    ((db.recipes.find? (fun r => r.id == rid)).isSome →
      (delete_recipe db rid).1 = .noContent ∧
      ((delete_recipe db rid).2).ingredients = db.ingredients ∧
      ((delete_recipe db rid).2).associations =
        db.associations.filter (fun a => !(a.recipe_id == rid)) ∧
      (∀ x : Recipe, x ∈ ((delete_recipe db rid).2).recipes ↔
        (x ∈ db.recipes ∧ x.id ≠ rid))) := by
  constructor
  · intro h
    simp [delete_recipe, h]
  · intro h
    rw [Option.isSome_iff_exists] at h
    obtain ⟨r, hr⟩ := h
    rw [delete_recipe, hr]
    exact ⟨rfl, rfl, rfl, fun x => mem_eraseRecipe rid db.recipes hids x⟩

theorem delete_recipe_spec_witness :
    (exDB.recipes.map (·.id)).Nodup ∧
    (delete_recipe exDB 1).1 = .noContent ∧
    ((delete_recipe exDB 1).2).ingredients = exDB.ingredients ∧
    (⟨1, "Soup", some "d", 40, 0⟩ : Recipe) ∉
      ((delete_recipe exDB 1).2).recipes ∧
    delete_recipe exDB 99 = (.notFound, exDB) := by
  have h1 := (delete_recipe_spec exDB 1 (by decide)).2 (by decide)
  have h2 := (delete_recipe_spec exDB 99 (by decide)).1 (by decide)
  exact ⟨by decide, h1.1, h1.2.1,
    fun hm => ((h1.2.2.2 _).mp hm).2 rfl, h2⟩

theorem find?_incViews (rid : Nat) (l : List Recipe) (r : Recipe)
    (h : l.find? (fun x => x.id == rid) = some r) :
    (incViews rid l).find? (fun x => x.id == rid) =
      some { r with views := r.views + 1 } := by
  induction l with
  | nil => simp at h
  | cons a l ih =>
    by_cases ha : a.id = rid
    · rw [List.find?_cons_of_pos _ (by simp [ha])] at h
      cases h
      rw [incViews, if_pos (by simp [ha])]
      exact List.find?_cons_of_pos _ (by simp [ha])
    · rw [List.find?_cons_of_neg _ (by simp [ha])] at h
      rw [incViews, if_neg (by simp [ha])]
      rw [List.find?_cons_of_neg _ (by simp [ha])]
      exact ih h

theorem get_recipe_detail_step (db : DB) (rid : Nat) (r : Recipe)
    (h : db.recipes.find? (fun x => x.id == rid) = some r) :
    (∃ out : RecipeOut,
      (get_recipe_detail db rid).1 = .ok out ∧ out.views = r.views + 1) ∧
    viewsOf (get_recipe_detail db rid).2 rid = some (r.views + 1) := by
  have h' := find?_incViews rid db.recipes r h
  have hb : buildRecipeOut { db with recipes := incViews rid db.recipes }
      rid =
      some { id := r.id, title := r.title, description := r.description,
             cook_time := r.cook_time, views := r.views + 1,
             ingredients :=
               ingredientListOut
                 { db with recipes := incViews rid db.recipes } rid } := by
    rw [buildRecipeOut, h', Option.map_some']
  simp only [get_recipe_detail, h, hb, viewsOf, h', Option.map_some']
  exact ⟨⟨_, rfl, rfl⟩, trivial⟩

/-- C1: for every recipe present in the store, a single successful fetch of
its id answers the detail body with `views` already incremented, commits
the increment (the post-request store carries the new counter), and after
`N` successive single-fetches of the same id the committed counter equals
the pre-test value plus `N`. -/
theorem get_detail_increments_views (db : DB) (rid v : Nat)
    (h : viewsOf db rid = some v) :
    (∃ out : RecipeOut,
      (get_recipe_detail db rid).1 = .ok out ∧ out.views = v + 1) ∧
    viewsOf (get_recipe_detail db rid).2 rid = some (v + 1) ∧
    ∀ N, viewsOf (fetchN rid N db) rid = some (v + N) := by
  have step : ∀ (db' : DB) (v' : Nat), viewsOf db' rid = some v' →
      (∃ out : RecipeOut,
        (get_recipe_detail db' rid).1 = .ok out ∧ out.views = v' + 1) ∧
      viewsOf (get_recipe_detail db' rid).2 rid = some (v' + 1) := by
    intro db' v' h'
    rw [viewsOf] at h'
    rcases ho : db'.recipes.find? (fun x => x.id == rid) with _ | r
    · rw [ho] at h'; exact absurd h' (by simp)
    · rw [ho] at h'
      simp only [Option.map_some', Option.some_inj] at h'
      have := get_recipe_detail_step db' rid r ho
      rw [h'] at this
      exact this
  refine ⟨(step db v h).1, (step db v h).2, ?_⟩
  have main : ∀ (N : Nat) (db' : DB) (v' : Nat),
      viewsOf db' rid = some v' →
      viewsOf (fetchN rid N db') rid = some (v' + N) := by
    intro N
    induction N with
    | zero => intro db' v' h'; rw [fetchN, Nat.add_zero]; exact h'
    | succ n ihn =>
      intro db' v' h'
      rw [fetchN]
      have := ihn (get_recipe_detail db' rid).2 (v' + 1) (step db' v' h').2
      rw [this]
      congr 1
      omega
  exact fun N => main N db v h

theorem get_detail_increments_views_witness :
    viewsOf exDB 1 = some 0 ∧
    viewsOf (fetchN 1 5 exDB) 1 = some (0 + 5) :=
  ⟨by decide, (get_detail_increments_views exDB 1 0 (by decide)).2.2 5⟩

theorem map_replaceRecipe {β : Type} (f : Recipe → β) (rid : Nat)
    (l : List Recipe) (r r1 : Recipe)
    (h : l.find? (fun x => x.id == rid) = some r) (hf : f r1 = f r) :
    (replaceRecipe rid r1 l).map f = l.map f := by
  induction l with
  | nil => simp at h
  | cons a l ih =>
    by_cases ha : a.id = rid
    · rw [List.find?_cons_of_pos _ (by simp [ha])] at h
      cases h
      rw [replaceRecipe, if_pos (by simp [ha])]
      simp [hf]
    · rw [List.find?_cons_of_neg _ (by simp [ha])] at h
      rw [replaceRecipe, if_neg (by simp [ha])]
      simp [ih h]

/-- C8: no update request — whatever fields it supplies — ever changes any
recipe's `views` counter; and a partial update that supplies only
`cook_time` additionally leaves every recipe's title and description, the
whole association table, and the whole ingredient table unchanged. -/
theorem update_frame (db : DB) (rid : Nat) (u : RecipeUpdate) :
    ((handle_update db rid u).2).recipes.map (fun r => (r.id, r.views)) =
      db.recipes.map (fun r => (r.id, r.views)) ∧
    (u.title = none → u.description = none → u.ingredients = none →
      ((handle_update db rid u).2).recipes.map
          (fun r => (r.id, r.title, r.description, r.views)) =
        db.recipes.map (fun r => (r.id, r.title, r.description, r.views)) ∧
      ((handle_update db rid u).2).associations = db.associations ∧
      ((handle_update db rid u).2).ingredients = db.ingredients) := by
  simp only [handle_update]
  by_cases hv : validRecipeUpdate u = true
  case neg =>
    rw [if_neg hv]
    exact ⟨rfl, fun _ _ _ => ⟨rfl, rfl, rfl⟩⟩
  rw [if_pos hv]
  simp only [update_recipe]
  cases hf : db.recipes.find? (fun x => x.id == rid) with
  | none => exact ⟨rfl, fun _ _ _ => ⟨rfl, rfl, rfl⟩⟩
  | some r =>
    cases hi : u.ingredients with
    | none =>
      simp only []
      split
      · refine ⟨map_replaceRecipe _ rid _ r _ hf rfl, fun ht hd _ => ?_⟩
        refine ⟨?_, rfl, rfl⟩
        apply map_replaceRecipe _ rid _ r _ hf
        simp [ht, hd]
      · exact ⟨rfl, fun _ _ _ => ⟨rfl, rfl, rfl⟩⟩
    | some ings =>
      simp only []
      split
      · refine ⟨map_replaceRecipe _ rid _ r _ hf rfl, fun _ _ hnone => ?_⟩
        cases hnone
      · exact ⟨rfl, fun _ _ _ => ⟨rfl, rfl, rfl⟩⟩

theorem update_frame_witness :
    ((handle_update exDB 1 ⟨none, some 15, none, none⟩).2).recipes.map
        (fun r => (r.id, r.views)) =
      exDB.recipes.map (fun r => (r.id, r.views)) ∧
    ((handle_update exDB 1 ⟨none, some 15, none, none⟩).2).recipes.map
        (fun r => (r.id, r.title, r.description, r.views)) =
      exDB.recipes.map (fun r => (r.id, r.title, r.description, r.views)) ∧
    ((handle_update exDB 1 ⟨none, some 15, none, none⟩).2).associations =
      exDB.associations :=
  ⟨(update_frame exDB 1 _).1,
    ((update_frame exDB 1 _).2 rfl rfl rfl).1,
    ((update_frame exDB 1 _).2 rfl rfl rfl).2.1⟩

/-- C5 (corrected), counterexample to the claim as stated: create is not
all-or-nothing.  A create payload listing the same ingredient title twice
makes the final association commit fail (composite-key violation), the
request surfaces a generic failure — yet the recipe row and the ingredient
row, committed earlier in the same request, remain in the store. -/
theorem create_not_atomic_counterexample :
    (handle_create emptyDB ⟨"Soup", "d", 40, [⟨"T", "1"⟩, ⟨"T", "2"⟩]⟩
        true).1 = .serverError ∧
    (handle_create emptyDB ⟨"Soup", "d", 40, [⟨"T", "1"⟩, ⟨"T", "2"⟩]⟩
        true).2 ≠ emptyDB ∧
    ((handle_create emptyDB ⟨"Soup", "d", 40, [⟨"T", "1"⟩, ⟨"T", "2"⟩]⟩
        true).2).recipes ≠ [] := by decide

/-- C5 (amended): update and delete are all-or-nothing per request — any
response other than success leaves the store exactly as it was — and a
Not-Found raised before mutation begins propagates as Not-Found rather
than being converted to a generic failure; for create, only the
pre-mutation rejections (validation and duplicate-title Conflict) are
guaranteed to leave the store unchanged, since create commits the recipe
row and ingredient rows before the association rows. -/
theorem update_delete_all_or_nothing (db : DB) (rid : Nat)
    (u : RecipeUpdate) :
    (∀ res db', handle_update db rid u = (res, db') →
      (∀ r, res ≠ .ok r) → db' = db) ∧
    (∀ res db', delete_recipe db rid = (res, db') →
      res ≠ .noContent → db' = db) ∧
    (validRecipeUpdate u = true →
      db.recipes.find? (fun r => r.id == rid) = none →
      (handle_update db rid u).1 = .notFound) ∧
    (db.recipes.find? (fun r => r.id == rid) = none →
      (delete_recipe db rid).1 = .notFound) ∧
    (∀ (p : RecipeCreate) (b : Bool),
      ((handle_create db p b).1 = .conflict ∨
       (handle_create db p b).1 = .validationError) →
      (handle_create db p b).2 = db) := by
  refine ⟨?_, ?_, ?_, ?_, ?_⟩
  · intro res db' heq hne
    rw [handle_update] at heq
    by_cases hv : validRecipeUpdate u = true
    case neg =>
      rw [if_neg hv] at heq
      cases heq; rfl
    rw [if_pos hv, update_recipe] at heq
    cases hf : db.recipes.find? (fun x => x.id == rid) with
    | none => rw [hf] at heq; cases heq; rfl
    | some r =>
      rw [hf] at heq
      cases hi : u.ingredients with
      | none =>
        rw [hi] at heq
        simp only [] at heq
        split at heq
        · cases heq; exact absurd rfl (hne _)
        · cases heq; rfl
      | some ings =>
        rw [hi] at heq
        simp only [] at heq
        split at heq
        · cases heq; exact absurd rfl (hne _)
        · cases heq; rfl
  · intro res db' heq hne
    rw [delete_recipe] at heq
    cases hf : db.recipes.find? (fun x => x.id == rid) with
    | none => rw [hf] at heq; cases heq; rfl
    | some r => rw [hf] at heq; cases heq; exact absurd rfl hne
  · intro hv hf
    rw [handle_update, if_pos hv, update_recipe, hf]
  · intro hf
    rw [delete_recipe, hf]
  · intro p b h
    rw [handle_create] at h ⊢
    by_cases hvp : validRecipeCreate p = true
    case neg => rw [if_neg hvp]
    rw [if_pos hvp] at h ⊢
    rw [create_recipe] at h ⊢
    by_cases hany : db.recipes.any (fun r => r.title == p.title) = true
    case pos => rw [if_pos hany]
    rw [if_neg hany] at h ⊢
    exfalso
    by_cases hc : (insertRecipeRow db p).ConstraintsOK
    case neg =>
      rw [if_neg hc] at h
      rcases h with h | h <;> cases h
    rw [if_pos hc] at h
    cases hl : createLoop db.nextRecipeId p.ingredients
        (insertRecipeRow db p) [] with
    | error dbc =>
      rw [hl] at h
      rcases h with h | h <;> cases h
    | ok x =>
      rw [hl] at h
      obtain ⟨dbc, pend⟩ := x
      simp only [createFinish] at h
      by_cases hc2 : (withAssocs dbc pend).ConstraintsOK
      case neg =>
        rw [if_neg hc2] at h
        rcases h with h | h <;> cases h
      rw [if_pos hc2] at h
      cases hb : buildRecipeOut (withAssocs dbc pend) db.nextRecipeId with
      | none => rw [hb] at h; rcases h with h | h <;> cases h
      | some out => rw [hb] at h; rcases h with h | h <;> cases h

theorem update_delete_all_or_nothing_witness :
    (handle_update exDB 99 ⟨none, some 15, none, none⟩).1 = .notFound ∧
    (delete_recipe exDB 99).1 = .notFound ∧
    (handle_create exDB ⟨"Soup", "x", 10, [⟨"T", "1"⟩]⟩ true).2 = exDB :=
  ⟨(update_delete_all_or_nothing exDB 99 ⟨none, some 15, none, none⟩).2.2.1
      (by decide) (by decide),
   (update_delete_all_or_nothing exDB 99
      ⟨none, some 15, none, none⟩).2.2.2.1 (by decide),
   (update_delete_all_or_nothing exDB 99
      ⟨none, some 15, none, none⟩).2.2.2.2 ⟨"Soup", "x", 10, [⟨"T", "1"⟩]⟩
      true (.inl (by decide))⟩

theorem ResultOK_mono (b b' : DB) (l : List Ingredient)
    (e : Except DB (DB × List RecipeIngredient)) (h : ResultOK b' e)
    (hing : b'.ingredients = b.ingredients ++ l) : ResultOK b e := by
  cases e with
  | error dbc =>
    obtain ⟨h1, ext, h2⟩ := h
    exact ⟨h1, l ++ ext, by rw [h2, hing, List.append_assoc]⟩
  | ok x =>
    obtain ⟨dbc, pd⟩ := x
    obtain ⟨h1, ext, h2⟩ := h
    exact ⟨h1, l ++ ext, by rw [h2, hing, List.append_assoc]⟩

theorem createLoop_preserves (rid : Nat) (ings : List IngredientIn) :
    ∀ (committed : DB) (pend : List RecipeIngredient),
      committed.ConstraintsOK →
      ResultOK committed (createLoop rid ings committed pend) := by
  induction ings with
  | nil =>
    intro committed pend h
    rw [createLoop]
    exact ⟨h, [], by simp⟩
  | cons ing rest ih =>
    intro committed pend h
    rw [createLoop]
    cases hfind : committed.ingredients.find?
        (fun i => i.title == ing.title) with
    | some i =>
      simp only []
      exact ih committed _ h
    | none =>
      simp only []
      split
      · rename_i hc
        refine ResultOK_mono committed (loopStep committed pend ing.title)
          [⟨committed.nextIngredientId, ing.title⟩] _ (ih _ _ hc) rfl
      · exact ⟨h, [], by simp⟩

theorem handle_create_preserves (db : DB) (p : RecipeCreate) (b : Bool)
    (h : db.ConstraintsOK) :
    ((handle_create db p b).2).ConstraintsOK ∧
    ∃ ext, ((handle_create db p b).2).ingredients =
      db.ingredients ++ ext := by
  rw [handle_create]
  by_cases hv : validRecipeCreate p = true
  case neg => rw [if_neg hv]; exact ⟨h, [], by simp⟩
  rw [if_pos hv, create_recipe]
  by_cases hany : db.recipes.any (fun r => r.title == p.title) = true
  case pos => rw [if_pos hany]; exact ⟨h, [], by simp⟩
  rw [if_neg hany]
  by_cases hc : (insertRecipeRow db p).ConstraintsOK
  case neg => rw [if_neg hc]; exact ⟨h, [], by simp⟩
  rw [if_pos hc]
  have hloop := createLoop_preserves db.nextRecipeId p.ingredients
    (insertRecipeRow db p) [] hc
  cases hl : createLoop db.nextRecipeId p.ingredients
      (insertRecipeRow db p) [] with
  | error dbc =>
    rw [hl] at hloop
    obtain ⟨h1, ext, h2⟩ := hloop
    exact ⟨h1, ext, h2⟩
  | ok x =>
    obtain ⟨dbc, pend⟩ := x
    rw [hl] at hloop
    obtain ⟨h1, ext, h2⟩ := hloop
    simp only [createFinish]
    split
    · rename_i hc2
      cases hb : buildRecipeOut (withAssocs dbc pend) db.nextRecipeId with
      | some out => exact ⟨hc2, ext, h2⟩
      | none => exact ⟨hc2, ext, h2⟩
    · exact ⟨h1, ext, h2⟩

theorem handle_update_preserves (db : DB) (rid : Nat) (u : RecipeUpdate)
    (h : db.ConstraintsOK) :
    ((handle_update db rid u).2).ConstraintsOK ∧
    ∃ ext, ((handle_update db rid u).2).ingredients =
      db.ingredients ++ ext := by
  simp only [handle_update]
  by_cases hv : validRecipeUpdate u = true
  case neg => rw [if_neg hv]; exact ⟨h, [], by simp⟩
  rw [if_pos hv]
  simp only [update_recipe]
  cases hf : db.recipes.find? (fun x => x.id == rid) with
  | none => exact ⟨h, [], by simp⟩
  | some r =>
    cases hi : u.ingredients with
    | none =>
      simp only []
      split
      · rename_i hc
        exact ⟨hc, [], by simp⟩
      · exact ⟨h, [], by simp⟩
    | some ings =>
      simp only []
      split
      · rename_i hc
        exact ⟨hc, _, rfl⟩
      · exact ⟨h, [], by simp⟩

/-- C3: starting from a store satisfying the schema constraints, after any
single create or any single update every `(recipe, ingredient)` pair
occurs at most once in the association table and no two ingredient rows
share a title (so supplying an ingredient title that already exists reuses
the existing row — every pre-existing ingredient row survives unchanged —
rather than inserting a duplicate, and re-supplying a title on update
replaces the association rather than duplicating it). -/
theorem assoc_pairs_unique (db : DB) (p : RecipeCreate) (b : Bool)
    (rid : Nat) (u : RecipeUpdate) (h : db.ConstraintsOK) :
    ((((handle_create db p b).2).associations.map
        (fun a => (a.recipe_id, a.ingredient_id))).Nodup ∧
      (((handle_create db p b).2).ingredients.map (·.title)).Nodup ∧
      ∀ i ∈ db.ingredients, i ∈ ((handle_create db p b).2).ingredients) ∧
    ((((handle_update db rid u).2).associations.map
        (fun a => (a.recipe_id, a.ingredient_id))).Nodup ∧
      (((handle_update db rid u).2).ingredients.map (·.title)).Nodup ∧
      ∀ i ∈ db.ingredients, i ∈ ((handle_update db rid u).2).ingredients)
    := by
  obtain ⟨hc1, ext1, he1⟩ := handle_create_preserves db p b h
  obtain ⟨hc2, ext2, he2⟩ := handle_update_preserves db rid u h
  refine ⟨⟨hc1.2.2.2.2, hc1.2.2.2.1, fun i hi => ?_⟩,
          ⟨hc2.2.2.2.2, hc2.2.2.2.1, fun i hi => ?_⟩⟩
  · rw [he1]; exact List.mem_append_left _ hi
  · rw [he2]; exact List.mem_append_left _ hi

theorem assoc_pairs_unique_witness :
    exDB.ConstraintsOK ∧
    (((handle_create exDB
        ⟨"Cake", "x", 10, [⟨"Tomato", "1"⟩, ⟨"Flour", "2"⟩]⟩
        true).2).associations.map
      (fun a => (a.recipe_id, a.ingredient_id))).Nodup ∧
    (((handle_update exDB 1
        ⟨none, none, none, some [⟨"Tomato", "3"⟩, ⟨"Salt", "4"⟩]⟩
        ).2).ingredients.map (·.title)).Nodup :=
  ⟨by decide,
   (assoc_pairs_unique exDB
      ⟨"Cake", "x", 10, [⟨"Tomato", "1"⟩, ⟨"Flour", "2"⟩]⟩ true 1
      ⟨none, none, none, some [⟨"Tomato", "3"⟩, ⟨"Salt", "4"⟩]⟩
      (by decide)).1.1,
   (assoc_pairs_unique exDB
      ⟨"Cake", "x", 10, [⟨"Tomato", "1"⟩, ⟨"Flour", "2"⟩]⟩ true 1
      ⟨none, none, none, some [⟨"Tomato", "3"⟩, ⟨"Salt", "4"⟩]⟩
      (by decide)).2.2.1⟩

end RecipeApp
